import Mathlib

/-!
Verification development for the tuiter-server-node backend.

The embedding below translates the TypeScript sources:
  * `src/services/TuitService.ts` — `fetchTuitsForLikesDisLikeOwn`, the
    viewer-relative annotation aggregator;
  * `src/controllers/BookmarkController.ts` — `userTogglesTuitBookmarks`
    and `findAllTuitsBookmarkedByUser`;
  * `src/controllers/UserController.ts` — `register`, `adminCreateUser`,
    `adminDeleteUser`, `searchByUsername`;
  * `src/controllers/AuthenticationController.ts` — `login`, `signup`,
    `profile`, `delete`;
  * the data model classes `Tuit` and `User`.

The DAO layer (`LikeDao`, `DislikeDao`, `BookmarkDao`, `TuitDao`,
`UserDao`) is not part of the given sources; its operations are modelled
from the specification's Record Store interface (point lookup by id,
lookup by (user, tuit) foreign-key pair, create, delete, cascading bulk
delete by user id).  Mongoose identifiers are modelled as `String`
(every comparison in the source goes through `toString()`).
-/

namespace Tuiter

/-- A user document: the `User` class of `src/models/users/User.ts`
together with the Mongo-generated `_id` that every controller reads.
Profile fields that no controller logic inspects are omitted. -/
structure User where
  _id : String
  username : String
  password : String
  email : String
deriving DecidableEq, Repr

/-- A tuit document: the `Tuit` class of `src/models/tuits/Tuit.ts` with
its Mongo `_id`.  `postedBy` is the populated author reference and is
nullable (`User | null` in the source); `postedOn` is a timestamp. -/
structure Tuit where
  _id : String
  tuit : String
  postedOn : Nat
  postedBy : Option User
deriving DecidableEq, Repr

/-- A Like / Dislike / Bookmark join document (the three are structurally
identical): a user reference and a tuit reference, both by identifier. -/
structure JoinRecord where
  user : String
  tuit : String
deriving DecidableEq, Repr

/-- The record store contents: users, tuits and the three join tables. -/
structure Store where
  users : List User
  tuits : List Tuit
  likes : List JoinRecord
  dislikes : List JoinRecord
  bookmarks : List JoinRecord
deriving DecidableEq, Repr

/-- Modelled from the spec: `LikeDao.findUserLikesTuit` (the DAO source is
not among the given files) — Record Store lookup by the foreign-key pair
(userId, tuitId), returning the join record or an absence marker. -/
def findUserLikesTuit (s : Store) (uid tid : String) : Option JoinRecord :=
  s.likes.find? (fun l => l.user == uid && l.tuit == tid)

/-- Modelled from the spec: `DislikeDao.findUserDislikesTuit` — lookup by
(userId, tuitId) in the dislikes table. -/
def findUserDislikesTuit (s : Store) (uid tid : String) : Option JoinRecord :=
  s.dislikes.find? (fun l => l.user == uid && l.tuit == tid)

/-- Modelled from the spec: `BookmarkDao.findUserBookmarksTuit` — lookup by
(userId, tuitId) in the bookmarks table. -/
def findUserBookmarksTuit (s : Store) (uid tid : String) : Option JoinRecord :=
  s.bookmarks.find? (fun l => l.user == uid && l.tuit == tid)

/-- Errors with which an annotate call can reject: a failed store lookup
(a rejected promise inside a `Promise.all`), or the `TypeError` raised by
`copyT.postedBy._id` when a tuit's author reference is `null`. -/
inductive AggError where
  | storeError
  | nullAuthor
deriving DecidableEq, Repr

/-- A tuit decorated by the aggregator: the shallow copy `t.toObject()`
of the tuit's own fields plus the four viewer-relative flags.  In the
source a flag key is added only when `true`, so `false` here models the
key being absent (the absent key is false-equivalent for the client). -/
structure DecoratedTuit where
  _id : String
  tuit : String
  postedOn : Nat
  postedBy : Option User
  likedByMe : Bool
  dislikedByMe : Bool
  bookmarkedByMe : Bool
  ownedByMe : Bool
deriving DecidableEq, Repr

/-- The three DAO lookups the aggregator fans out over, as injected
dependencies; each may reject with a store error (`Except.error`). -/
structure TuitDaos where
  findUserLikesTuit : String → String → Except Unit (Option JoinRecord)
  findUserDislikesTuit : String → String → Except Unit (Option JoinRecord)
  findUserBookmarksTuit : String → String → Except Unit (Option JoinRecord)

/-- `Promise.all`: waits for every lookup; rejects iff any lookup
rejects, otherwise yields the list of results in order. -/
def promiseAll : List (Except ε α) → Except ε (List α)
  | [] => Except.ok []
  | x :: xs => do
    let v ← x
    let vs ← promiseAll xs
    pure (v :: vs)

/-- The body of the final `tuits.map` in `fetchTuitsForLikesDisLikeOwn`:
`copyT = t.toObject()`, conditional flag spreads, then the
`copyT.postedBy._id.toString() === userId.toString()` owner check, which
throws a `TypeError` when `postedBy` is `null`. -/
def decorateTuit (likedTuitsIds dislikedTuitsIds bookmarkedTuitsIds :
    List (Option String)) (userId : String) (t : Tuit) :
    Except AggError DecoratedTuit :=
  match t.postedBy with
  | none => Except.error AggError.nullAuthor
  | some owner =>
    Except.ok
      { _id := t._id
        tuit := t.tuit
        postedOn := t.postedOn
        postedBy := t.postedBy
        likedByMe := likedTuitsIds.contains (some t._id)
        dislikedByMe := dislikedTuitsIds.contains (some t._id)
        bookmarkedByMe := bookmarkedTuitsIds.contains (some t._id)
        ownedByMe := owner._id == userId }

/-- `Array.prototype.map` with a callback that can throw: the first throw
aborts the whole map (and hence rejects the enclosing async function). -/
def mapEx (f : α → Except ε β) : List α → Except ε (List β)
  | [] => Except.ok []
  | x :: xs => do
    let y ← f x
    let ys ← mapEx f xs
    pure (y :: ys)

/-- `TuitService.fetchTuitsForLikesDisLikeOwn` (src/services/TuitService.ts):
fan out the three lookups over every tuit, await the three `Promise.all`
barriers, collect the tuit-id of every non-absent result (`undefined`,
i.e. `none`, for a miss), then map every tuit to a decorated shallow
copy.  The whole call rejects if any lookup rejects or if a tuit has a
`null` author. -/
def fetchTuitsForLikesDisLikeOwn (daos : TuitDaos) (userId : String)
    (tuits : List Tuit) : Except AggError (List DecoratedTuit) := do
  let findLikesPromises := tuits.map (fun t => daos.findUserLikesTuit userId t._id)
  let findDislikesPromises := tuits.map (fun t => daos.findUserDislikesTuit userId t._id)
  let findBookmarksPromises := tuits.map (fun t => daos.findUserBookmarksTuit userId t._id)
  let likedTuits ← (promiseAll findLikesPromises).mapError (fun _ => AggError.storeError)
  let dislikedTuits ← (promiseAll findDislikesPromises).mapError (fun _ => AggError.storeError)
  let bookmarkedTuits ← (promiseAll findBookmarksPromises).mapError (fun _ => AggError.storeError)
  let likedTuitsIds := likedTuits.map (fun l => l.map (fun r => r.tuit))
  let dislikedTuitsIds := dislikedTuits.map (fun l => l.map (fun r => r.tuit))
  let bookmarkedTuitsIds := bookmarkedTuits.map (fun l => l.map (fun r => r.tuit))
  mapEx (decorateTuit likedTuitsIds dislikedTuitsIds bookmarkedTuitsIds userId) tuits

/-- The DAO lookups as served by a concrete store, never failing
(instantiates the injected dependencies with the modelled store reads). -/
def storeDaos (s : Store) : TuitDaos where
  findUserLikesTuit := fun uid tid => Except.ok (findUserLikesTuit s uid tid)
  findUserDislikesTuit := fun uid tid => Except.ok (findUserDislikesTuit s uid tid)
  findUserBookmarksTuit := fun uid tid => Except.ok (findUserBookmarksTuit s uid tid)

/-- A Like record for (viewer, post) exists in the store. -/
def likeExists (s : Store) (uid tid : String) : Prop :=
  ∃ l ∈ s.likes, l.user = uid ∧ l.tuit = tid

/-- A Dislike record for (viewer, post) exists in the store. -/
def dislikeExists (s : Store) (uid tid : String) : Prop :=
  ∃ l ∈ s.dislikes, l.user = uid ∧ l.tuit = tid

/-- A Bookmark record for (viewer, post) exists in the store. -/
def bookmarkExists (s : Store) (uid tid : String) : Prop :=
  ∃ l ∈ s.bookmarks, l.user = uid ∧ l.tuit = tid

/-- The id list one fan-in barrier produces over a concrete store: for
each tuit, the tuit-id field of the found join record, or `none`
(`undefined`) on a miss. -/
def joinIds (table : List JoinRecord) (uid : String) (ts : List Tuit) :
    List (Option String) :=
  ts.map (fun t => (table.find? (fun l => l.user == uid && l.tuit == t._id)).map
    (fun r => r.tuit))

theorem promiseAll_map_ok {ε α β : Type} (g : α → β) (l : List α) :
    promiseAll (l.map (fun t => (Except.ok (g t) : Except ε β))) =
      Except.ok (l.map g) := by
  induction l with
  | nil => rfl
  | cons x xs ih => simp [promiseAll, ih, Bind.bind, Except.bind, pure, Except.pure]

theorem promiseAll_error_of_mem {l : List (Except ε α)} {e : ε}
    (h : Except.error e ∈ l) : ∃ e2, promiseAll l = Except.error e2 := by
  induction l with
  | nil => cases h
  | cons x xs ih =>
    rcases List.mem_cons.mp h with h1 | h2
    · exact ⟨e, by simp [promiseAll, ← h1, Bind.bind, Except.bind]⟩
    · rcases ih h2 with ⟨e2, he2⟩
      cases hx : x with
      | error ex => exact ⟨ex, by simp [promiseAll, hx, Bind.bind, Except.bind]⟩
      | ok vx => exact ⟨e2, by simp [promiseAll, hx, he2, Bind.bind, Except.bind]⟩

theorem mapEx_cons_ok {f : α → Except ε β} {x : α} {xs : List α}
    {out : List β} (h : mapEx f (x :: xs) = Except.ok out) :
    ∃ y ys, f x = Except.ok y ∧ mapEx f xs = Except.ok ys ∧ out = y :: ys := by
  cases hx : f x with
  | error ex => simp [mapEx, hx, Bind.bind, Except.bind] at h
  | ok y =>
    cases hxs : mapEx f xs with
    | error exs => simp [mapEx, hx, hxs, Bind.bind, Except.bind] at h
    | ok ys =>
      refine ⟨y, ys, rfl, rfl, ?_⟩
      simp [mapEx, hx, hxs, Bind.bind, Except.bind, pure, Except.pure] at h
      exact h.symm

theorem mapEx_ok_length {f : α → Except ε β} {l : List α} {out : List β}
    (h : mapEx f l = Except.ok out) : out.length = l.length := by
  induction l generalizing out with
  | nil => simp [mapEx] at h; simp [← h]
  | cons x xs ih =>
    rcases mapEx_cons_ok h with ⟨y, ys, _, hxs, hout⟩
    simp [hout, ih hxs]

theorem mapEx_ok_get {f : α → Except ε β} {l : List α} {out : List β}
    (h : mapEx f l = Except.ok out) (i : Nat) (hl : i < l.length)
    (ho : i < out.length) : f (l.get ⟨i, hl⟩) = Except.ok (out.get ⟨i, ho⟩) := by
  induction l generalizing out i with
  | nil => exact absurd hl (by simp)
  | cons x xs ih =>
    rcases mapEx_cons_ok h with ⟨y, ys, hx, hxs, hout⟩
    subst hout
    match i with
    | 0 => simpa using hx
    | Nat.succ j => exact ih hxs j (by simpa using hl) (by simpa using ho)

theorem mapEx_map_ok {f : α → Except ε β} {g : α → β} {l : List α}
    (h : ∀ a ∈ l, f a = Except.ok (g a)) :
    mapEx f l = Except.ok (l.map g) := by
  induction l with
  | nil => rfl
  | cons x xs ih =>
    have hx := h x (List.mem_cons_self x xs)
    have hxs := ih (fun a ha => h a (List.mem_cons_of_mem x ha))
    simp [mapEx, hx, hxs, Bind.bind, Except.bind, pure, Except.pure]

/-- Over a concrete, never-failing store the aggregator reduces to the
final decorating map with the three id lists computed from the store. -/
theorem fetch_storeDaos (s : Store) (uid : String) (ts : List Tuit) :
    fetchTuitsForLikesDisLikeOwn (storeDaos s) uid ts =
      mapEx (decorateTuit (joinIds s.likes uid ts) (joinIds s.dislikes uid ts)
        (joinIds s.bookmarks uid ts) uid) ts := by
  unfold fetchTuitsForLikesDisLikeOwn storeDaos
  simp [promiseAll_map_ok, Except.mapError, Bind.bind, Except.bind,
    List.map_map, joinIds, findUserLikesTuit, findUserDislikesTuit,
    findUserBookmarksTuit, Function.comp_def]

theorem mem_joinIds_iff (table : List JoinRecord) (uid : String)
    (ts : List Tuit) (t : Tuit) (ht : t ∈ ts) :
    (joinIds table uid ts).contains (some t._id) = true ↔
      ∃ l ∈ table, l.user = uid ∧ l.tuit = t._id := by
  rw [List.elem_iff]
  constructor
  · intro hmem
    rcases List.mem_map.mp hmem with ⟨t2, _, hf⟩
    cases hfind : table.find? (fun l => l.user == uid && l.tuit == t2._id) with
    | none => rw [hfind] at hf; simp at hf
    | some l =>
      rw [hfind] at hf
      simp at hf
      have hp := List.find?_some hfind
      simp only [Bool.and_eq_true, beq_iff_eq] at hp
      exact ⟨l, List.mem_of_find?_eq_some hfind, hp.1, hf⟩
  · rintro ⟨l, hl, hu, htid⟩
    cases hfind : table.find? (fun r => r.user == uid && r.tuit == t._id) with
    | none =>
      have := List.find?_eq_none.mp hfind l hl
      simp [hu, htid] at this
    | some l2 =>
      have hp := List.find?_some hfind
      simp only [Bool.and_eq_true, beq_iff_eq] at hp
      refine List.mem_map.mpr ⟨t, ht, ?_⟩
      rw [hfind]
      simp [hp.2]

/-- `decorateTuit` on a tuit with a non-null author. -/
theorem decorateTuit_some {L D B : List (Option String)} {uid : String}
    {t : Tuit} {owner : User} (h : t.postedBy = some owner) :
    decorateTuit L D B uid t = Except.ok
      { _id := t._id, tuit := t.tuit, postedOn := t.postedOn,
        postedBy := t.postedBy,
        likedByMe := L.contains (some t._id),
        dislikedByMe := D.contains (some t._id),
        bookmarkedByMe := B.contains (some t._id),
        ownedByMe := owner._id == uid } := by
  unfold decorateTuit
  rw [h]

/-- `decorateTuit` succeeds only on tuits with a non-null author. -/
theorem decorateTuit_ok_postedBy {L D B : List (Option String)}
    {uid : String} {t : Tuit} {d : DecoratedTuit}
    (h : decorateTuit L D B uid t = Except.ok d) :
    ∃ owner, t.postedBy = some owner := by
  cases hpb : t.postedBy with
  | none => unfold decorateTuit at h; rw [hpb] at h; cases h
  | some owner => exact ⟨owner, rfl⟩

/-- The value `decorateTuit` produces on a tuit whose author is present
(the successful branch, as a total function). -/
def decorateTuitPure (likedTuitsIds dislikedTuitsIds bookmarkedTuitsIds :
    List (Option String)) (userId : String) (t : Tuit) : DecoratedTuit :=
  { _id := t._id
    tuit := t.tuit
    postedOn := t.postedOn
    postedBy := t.postedBy
    likedByMe := likedTuitsIds.contains (some t._id)
    dislikedByMe := dislikedTuitsIds.contains (some t._id)
    bookmarkedByMe := bookmarkedTuitsIds.contains (some t._id)
    ownedByMe := match t.postedBy with
      | some owner => owner._id == userId
      | none => false }

theorem decorateTuit_eq_pure {L D B : List (Option String)} {uid : String}
    {t : Tuit} {owner : User} (h : t.postedBy = some owner) :
    decorateTuit L D B uid t = Except.ok (decorateTuitPure L D B uid t) := by
  rw [decorateTuit_some h]
  unfold decorateTuitPure
  rw [h]

/-- C1: decorated flags are exactly join-record existence at call time,
and ownership is author-id equality with the viewer id; a flag is false
(key absent) in every other case. -/
theorem annotate_flag_correctness (s : Store) (userId : String)
    (tuits : List Tuit) (out : List DecoratedTuit)
    (h : fetchTuitsForLikesDisLikeOwn (storeDaos s) userId tuits = Except.ok out)
    (i : Nat) (hi : i < tuits.length) (ho : i < out.length) :
    ((out.get ⟨i, ho⟩).likedByMe = true ↔
        likeExists s userId (tuits.get ⟨i, hi⟩)._id) ∧
    ((out.get ⟨i, ho⟩).dislikedByMe = true ↔
        dislikeExists s userId (tuits.get ⟨i, hi⟩)._id) ∧
    ((out.get ⟨i, ho⟩).bookmarkedByMe = true ↔
        bookmarkExists s userId (tuits.get ⟨i, hi⟩)._id) ∧
    ((out.get ⟨i, ho⟩).ownedByMe = true ↔
        ∃ u, (tuits.get ⟨i, hi⟩).postedBy = some u ∧ u._id = userId) := by
  rw [fetch_storeDaos] at h
  have hdec := mapEx_ok_get h i hi ho
  obtain ⟨owner, hpb⟩ := decorateTuit_ok_postedBy hdec
  rw [decorateTuit_some hpb] at hdec
  have hd := (Except.ok.inj hdec).symm
  have htmem : tuits.get ⟨i, hi⟩ ∈ tuits := List.get_mem tuits i hi
  refine ⟨?_, ?_, ?_, ?_⟩
  · rw [hd]
    exact mem_joinIds_iff s.likes userId tuits _ htmem
  · rw [hd]
    exact mem_joinIds_iff s.dislikes userId tuits _ htmem
  · rw [hd]
    exact mem_joinIds_iff s.bookmarks userId tuits _ htmem
  · rw [hd]
    simp only [beq_iff_eq]
    constructor
    · intro howner
      exact ⟨owner, hpb, howner⟩
    · rintro ⟨u, hu, hid⟩
      rw [hpb] at hu
      cases hu
      exact hid

/-- Concrete fixture: a store in which viewer u1 has liked p1 and
bookmarked p2 (the spec's concrete scenario, restricted to p1). -/
def likedStoreW : Store :=
  ⟨[], [], [⟨"u1", "p1"⟩], [], [⟨"u1", "p2"⟩]⟩

/-- Concrete fixture: tuit p1, authored by u2. -/
def tuitP1W : Tuit :=
  ⟨"p1", "a", 0, some ⟨"u2", "bob", "h", "b"⟩⟩

/-- C1 witness: on the concrete scenario the theorem applies — the first
decorated tuit's likedByMe flag witnesses the stored Like of (u1, p1). -/
theorem annotate_flag_correctness_witness :
    likeExists likedStoreW "u1" "p1" := by
  have h : fetchTuitsForLikesDisLikeOwn (storeDaos likedStoreW) "u1" [tuitP1W] =
      Except.ok [⟨"p1", "a", 0, some ⟨"u2", "bob", "h", "b"⟩,
                  true, false, false, false⟩] := by rfl
  exact (annotate_flag_correctness likedStoreW "u1" [tuitP1W] _ h 0
    (by decide) (by decide)).1.mp (by decide)

/-- C2 counterexample: a single tuit whose `postedBy` is null makes the
whole annotate call reject (the `TypeError` of `copyT.postedBy._id`),
so no list of decorated posts — in particular not a list of length 1 —
is returned, contradicting "one output per input, no filtering". -/
theorem annotate_cardinality_cex :
    fetchTuitsForLikesDisLikeOwn (storeDaos ⟨[], [], [], [], []⟩) "u1"
      [⟨"p1", "hello", 0, none⟩] = Except.error AggError.nullAuthor := by
  rfl

/-- C2 (amended): for every input of N posts all of which carry a
non-null author reference, annotate returns exactly N decorated posts in
input order, one per input (N = 0 gives the empty sequence). -/
theorem annotate_order_cardinality (s : Store) (uid : String)
    (tuits : List Tuit) (hauth : ∀ t ∈ tuits, t.postedBy.isSome = true) :
    ∃ out, fetchTuitsForLikesDisLikeOwn (storeDaos s) uid tuits = Except.ok out ∧
      out.length = tuits.length ∧
      ∀ i (hi : i < tuits.length) (ho : i < out.length),
        (out.get ⟨i, ho⟩)._id = (tuits.get ⟨i, hi⟩)._id ∧
        (out.get ⟨i, ho⟩).tuit = (tuits.get ⟨i, hi⟩).tuit ∧
        (out.get ⟨i, ho⟩).postedOn = (tuits.get ⟨i, hi⟩).postedOn ∧
        (out.get ⟨i, ho⟩).postedBy = (tuits.get ⟨i, hi⟩).postedBy := by
  rw [fetch_storeDaos]
  refine ⟨tuits.map (decorateTuitPure (joinIds s.likes uid tuits)
    (joinIds s.dislikes uid tuits) (joinIds s.bookmarks uid tuits) uid),
    ?_, by simp, ?_⟩
  · apply mapEx_map_ok
    intro a ha
    obtain ⟨owner, hpb⟩ := Option.isSome_iff_exists.mp (hauth a ha)
    exact decorateTuit_eq_pure hpb
  · intro i hi ho
    simp [decorateTuitPure]

/-- C2 witness: one well-formed tuit yields exactly one decorated tuit. -/
theorem annotate_order_cardinality_witness :
    ∃ out, fetchTuitsForLikesDisLikeOwn (storeDaos ⟨[], [], [], [], []⟩) "u1"
        [⟨"p2", "b", 1, some ⟨"u1", "al", "h", "e"⟩⟩] = Except.ok out ∧
      out.length = 1 := by
  obtain ⟨out, h1, h2, _⟩ := annotate_order_cardinality ⟨[], [], [], [], []⟩
    "u1" [⟨"p2", "b", 1, some ⟨"u1", "al", "h", "e"⟩⟩] (by decide)
  exact ⟨out, h1, h2⟩

/-- C3: the code, evaluated at a post with a null author reference,
rejects with the modelled `TypeError` instead of returning the post with
`ownedByMe` false — the guard the spec requires is missing. -/
theorem annotate_null_author_raises :
    fetchTuitsForLikesDisLikeOwn (storeDaos ⟨[], [], [], [], []⟩) "u9"
      [⟨"p9", "t", 0, none⟩] = Except.error AggError.nullAuthor := by
  rfl

/-- C4: if any single lookup issued for any tuit in the input rejects,
the whole annotate call rejects and returns no decorated output. -/
theorem annotate_all_or_nothing (daos : TuitDaos) (uid : String)
    (tuits : List Tuit) (t : Tuit) (ht : t ∈ tuits)
    (hfail : (∃ e, daos.findUserLikesTuit uid t._id = Except.error e) ∨
             (∃ e, daos.findUserDislikesTuit uid t._id = Except.error e) ∨
             (∃ e, daos.findUserBookmarksTuit uid t._id = Except.error e)) :
    fetchTuitsForLikesDisLikeOwn daos uid tuits =
      Except.error AggError.storeError := by
  unfold fetchTuitsForLikesDisLikeOwn
  rcases hfail with ⟨e, he⟩ | ⟨e, he⟩ | ⟨e, he⟩
  · have hmem : Except.error e ∈
        tuits.map (fun t2 => daos.findUserLikesTuit uid t2._id) :=
      List.mem_map.mpr ⟨t, ht, he⟩
    obtain ⟨e2, hL⟩ := promiseAll_error_of_mem hmem
    simp [hL, Except.mapError, Bind.bind, Except.bind]
  · have hmem : Except.error e ∈
        tuits.map (fun t2 => daos.findUserDislikesTuit uid t2._id) :=
      List.mem_map.mpr ⟨t, ht, he⟩
    obtain ⟨e2, hD⟩ := promiseAll_error_of_mem hmem
    cases hL : promiseAll (tuits.map fun t2 => daos.findUserLikesTuit uid t2._id) with
    | error e3 => simp [hL, Except.mapError, Bind.bind, Except.bind]
    | ok v => simp [hL, hD, Except.mapError, Bind.bind, Except.bind]
  · have hmem : Except.error e ∈
        tuits.map (fun t2 => daos.findUserBookmarksTuit uid t2._id) :=
      List.mem_map.mpr ⟨t, ht, he⟩
    obtain ⟨e2, hB⟩ := promiseAll_error_of_mem hmem
    cases hL : promiseAll (tuits.map fun t2 => daos.findUserLikesTuit uid t2._id) with
    | error e3 => simp [hL, Except.mapError, Bind.bind, Except.bind]
    | ok v =>
      cases hD : promiseAll (tuits.map fun t2 => daos.findUserDislikesTuit uid t2._id) with
      | error e4 => simp [hL, hD, Except.mapError, Bind.bind, Except.bind]
      | ok v2 => simp [hL, hD, hB, Except.mapError, Bind.bind, Except.bind]

/-- Concrete fixture: lookups whose Dislike lookup always rejects while
Like and Bookmark lookups succeed with "record absent". -/
def failingDaosW : TuitDaos :=
  ⟨fun _ _ => Except.ok none, fun _ _ => Except.error (),
   fun _ _ => Except.ok none⟩

/-- C4 witness: with the one failing Dislike lookup, the annotate call
for one tuit rejects and yields no decorated output. -/
theorem annotate_all_or_nothing_witness :
    fetchTuitsForLikesDisLikeOwn failingDaosW "u1"
      [⟨"p1", "a", 0, some ⟨"u1", "al", "h", "e"⟩⟩] =
      Except.error AggError.storeError :=
  annotate_all_or_nothing failingDaosW "u1" _
    ⟨"p1", "a", 0, some ⟨"u1", "al", "h", "e"⟩⟩ (by simp)
    (Or.inr (Or.inl ⟨(), rfl⟩))

/-- `Promise.all` over store operations with the store state threaded
through each operation in turn (used to express that the aggregator's
lookups leave the store untouched). -/
def promiseAllST (ops : List (Store → Option JoinRecord × Store))
    (s : Store) : List (Option JoinRecord) × Store :=
  match ops with
  | [] => ([], s)
  | op :: rest =>
    let (r, s2) := op s
    let (rs, s3) := promiseAllST rest s2
    (r :: rs, s3)

/-- `fetchTuitsForLikesDisLikeOwn` with the record store threaded
explicitly through every DAO call it issues: each `findOne` is a pure
read `fun s2 => (find s2 …, s2)` (modelled from the spec's Record Store
interface — lookups do not write).  The result component is computed
exactly as in `fetchTuitsForLikesDisLikeOwn`. -/
def fetchTuitsForLikesDisLikeOwnST (userId : String) (tuits : List Tuit)
    (s : Store) : Except AggError (List DecoratedTuit) × Store :=
  let (likedTuits, s1) := promiseAllST
    (tuits.map (fun t s2 => (findUserLikesTuit s2 userId t._id, s2))) s
  let (dislikedTuits, s2) := promiseAllST
    (tuits.map (fun t s3 => (findUserDislikesTuit s3 userId t._id, s3))) s1
  let (bookmarkedTuits, s3) := promiseAllST
    (tuits.map (fun t s4 => (findUserBookmarksTuit s4 userId t._id, s4))) s2
  let likedTuitsIds := likedTuits.map (fun l => l.map (fun r => r.tuit))
  let dislikedTuitsIds := dislikedTuits.map (fun l => l.map (fun r => r.tuit))
  let bookmarkedTuitsIds := bookmarkedTuits.map (fun l => l.map (fun r => r.tuit))
  (mapEx (decorateTuit likedTuitsIds dislikedTuitsIds bookmarkedTuitsIds userId)
    tuits, s3)

theorem promiseAllST_map_read (g : Tuit → Store → Option JoinRecord)
    (ts : List Tuit) (s : Store) :
    promiseAllST (ts.map (fun t s2 => (g t s2, s2))) s =
      (ts.map (fun t => g t s), s) := by
  induction ts with
  | nil => rfl
  | cons x xs ih => simp [promiseAllST, ih]

/-- The threaded aggregator computes the same result as the injected-DAO
aggregator over the same store, and returns the store unchanged. -/
theorem fetchST_eq (userId : String) (tuits : List Tuit) (s : Store) :
    fetchTuitsForLikesDisLikeOwnST userId tuits s =
      (fetchTuitsForLikesDisLikeOwn (storeDaos s) userId tuits, s) := by
  unfold fetchTuitsForLikesDisLikeOwnST
  simp only [promiseAllST_map_read]
  rw [fetch_storeDaos]
  simp [joinIds, List.map_map, Function.comp_def, findUserLikesTuit,
    findUserDislikesTuit, findUserBookmarksTuit]

/-- Base fields of every decorated output equal those of the matching
input tuit (the decoration is a shallow copy plus flags). -/
theorem annotate_ok_base_fields {s : Store} {uid : String}
    {tuits : List Tuit} {out : List DecoratedTuit}
    (h : fetchTuitsForLikesDisLikeOwn (storeDaos s) uid tuits = Except.ok out)
    (i : Nat) (hi : i < tuits.length) (ho : i < out.length) :
    (out.get ⟨i, ho⟩)._id = (tuits.get ⟨i, hi⟩)._id ∧
    (out.get ⟨i, ho⟩).tuit = (tuits.get ⟨i, hi⟩).tuit ∧
    (out.get ⟨i, ho⟩).postedOn = (tuits.get ⟨i, hi⟩).postedOn ∧
    (out.get ⟨i, ho⟩).postedBy = (tuits.get ⟨i, hi⟩).postedBy := by
  rw [fetch_storeDaos] at h
  have hdec := mapEx_ok_get h i hi ho
  obtain ⟨owner, hpb⟩ := decorateTuit_ok_postedBy hdec
  rw [decorateTuit_some hpb] at hdec
  have hd := (Except.ok.inj hdec).symm
  rw [hd]
  exact ⟨rfl, rfl, rfl, rfl⟩

/-- C5: annotate has no side effects — after the call the store is
exactly the starting store (no record of any kind is created, changed,
or deleted, and in particular no flag is persisted onto any stored
tuit), and every decorated output is a shallow copy carrying the
unchanged fields of its input post. -/
theorem annotate_no_side_effects (userId : String) (tuits : List Tuit)
    (s : Store) :
    (fetchTuitsForLikesDisLikeOwnST userId tuits s).2 = s ∧
    ∀ out, (fetchTuitsForLikesDisLikeOwnST userId tuits s).1 = Except.ok out →
      ∀ i (hi : i < tuits.length) (ho : i < out.length),
        (out.get ⟨i, ho⟩)._id = (tuits.get ⟨i, hi⟩)._id ∧
        (out.get ⟨i, ho⟩).tuit = (tuits.get ⟨i, hi⟩).tuit ∧
        (out.get ⟨i, ho⟩).postedOn = (tuits.get ⟨i, hi⟩).postedOn ∧
        (out.get ⟨i, ho⟩).postedBy = (tuits.get ⟨i, hi⟩).postedBy := by
  rw [fetchST_eq]
  exact ⟨rfl, fun out h => annotate_ok_base_fields h⟩

/-- C5 witness: on a concrete store and post, the store after the call
is the starting store and the decorated post carries the post's fields. -/
theorem annotate_no_side_effects_witness :
    (fetchTuitsForLikesDisLikeOwnST "u1"
      [⟨"p5", "c", 2, some ⟨"u2", "bob", "h", "b"⟩⟩]
      ⟨[], [], [⟨"u1", "p5"⟩], [], []⟩).2 = ⟨[], [], [⟨"u1", "p5"⟩], [], []⟩ ∧
    (([(⟨"p5", "c", 2, some ⟨"u2", "bob", "h", "b"⟩, true, false, false,
        false⟩ : DecoratedTuit)].get ⟨0, by decide⟩)._id =
      (([(⟨"p5", "c", 2, some ⟨"u2", "bob", "h", "b"⟩⟩ : Tuit)]).get
        ⟨0, by decide⟩)._id) := by
  refine ⟨(annotate_no_side_effects "u1" _ _).1, ?_⟩
  exact ((annotate_no_side_effects "u1"
    [⟨"p5", "c", 2, some ⟨"u2", "bob", "h", "b"⟩⟩]
    ⟨[], [], [⟨"u1", "p5"⟩], [], []⟩).2
    [⟨"p5", "c", 2, some ⟨"u2", "bob", "h", "b"⟩, true, false, false, false⟩]
    (by rfl) 0 (by decide) (by decide)).1

/-- HTTP responses a controller can send: a bare status code, a user
JSON body, a user-list JSON body, or the store's delete-status JSON. -/
inductive ApiResponse where
  | status (code : Nat)
  | userJson (u : User)
  | usersJson (us : List User)
  | deleteStatusJson
deriving DecidableEq, Repr

/-- Modelled from the spec: `BookmarkDao.userBookmarksTuit` — create the
join record for (userId, tuitId). -/
def userBookmarksTuit (s : Store) (uid tid : String) : Store :=
  { s with bookmarks := s.bookmarks ++ [⟨uid, tid⟩] }

/-- Modelled from the spec: `BookmarkDao.userUnbookmarksTuit` — delete
the join record keyed on (userId, tuitId). -/
def userUnbookmarksTuit (s : Store) (uid tid : String) : Store :=
  { s with bookmarks :=
      s.bookmarks.filter (fun b => !(b.user == uid && b.tuit == tid)) }

/-- The session-aware id resolution at the top of the toggle handler:
`uid === 'me' && profile ? profile._id : uid`. -/
def resolveUserId (uid : String) (profile : Option User) : String :=
  if uid == "me" then
    match profile with
    | some p => p._id
    | none => uid
  else uid

/-- `BookmarkController.userTogglesTuitBookmarks`
(src/controllers/BookmarkController.ts): look up the join record for the
resolved user and the tuit; delete it if present, create it otherwise;
respond 200.  (The catch-all 404 branch is unreachable here because the
modelled store operations do not fail.) -/
def userTogglesTuitBookmarks (s : Store) (uid tid : String)
    (profile : Option User) : ApiResponse × Store :=
  let userId := resolveUserId uid profile
  match findUserBookmarksTuit s userId tid with
  | some _ => (ApiResponse.status 200, userUnbookmarksTuit s userId tid)
  | none => (ApiResponse.status 200, userBookmarksTuit s userId tid)

theorem bookmarkExists_iff_isSome (s : Store) (uid tid : String) :
    bookmarkExists s uid tid ↔ (findUserBookmarksTuit s uid tid).isSome = true := by
  unfold bookmarkExists findUserBookmarksTuit
  rw [List.find?_isSome]
  constructor
  · rintro ⟨l, hl, hu, ht⟩
    exact ⟨l, hl, by simp [hu, ht]⟩
  · rintro ⟨l, hl, hp⟩
    simp only [Bool.and_eq_true, beq_iff_eq] at hp
    exact ⟨l, hl, hp.1, hp.2⟩

theorem not_bookmarkExists_unbookmark (s : Store) (uid tid : String) :
    ¬ bookmarkExists (userUnbookmarksTuit s uid tid) uid tid := by
  rintro ⟨l, hl, hu, ht⟩
  unfold userUnbookmarksTuit at hl
  simp only [List.mem_filter] at hl
  rcases hl with ⟨_, hkeep⟩
  simp [hu, ht] at hkeep

theorem bookmarkExists_bookmark (s : Store) (uid tid : String) :
    bookmarkExists (userBookmarksTuit s uid tid) uid tid := by
  refine ⟨⟨uid, tid⟩, ?_, rfl, rfl⟩
  unfold userBookmarksTuit
  simp

/-- One toggle flips membership of the (resolved user, tuit) pair. -/
theorem toggle_flips (s : Store) (uid tid : String) (profile : Option User) :
    bookmarkExists (userTogglesTuitBookmarks s uid tid profile).2
        (resolveUserId uid profile) tid ↔
      ¬ bookmarkExists s (resolveUserId uid profile) tid := by
  unfold userTogglesTuitBookmarks
  cases hf : findUserBookmarksTuit s (resolveUserId uid profile) tid with
  | none =>
    have habs : ¬ bookmarkExists s (resolveUserId uid profile) tid := by
      rw [bookmarkExists_iff_isSome, hf]
      simp
    simp [hf, habs, bookmarkExists_bookmark]
  | some l =>
    have hpres : bookmarkExists s (resolveUserId uid profile) tid := by
      rw [bookmarkExists_iff_isSome, hf]
      rfl
    simp [hf, hpres, not_bookmarkExists_unbookmark]

/-- C6: the toggle deletes the pair's join record when present and
creates it when absent, so membership flips, and two toggles in sequence
restore the original membership state of the pair. -/
theorem toggle_round_trip (s : Store) (uid tid : String)
    (profile : Option User) :
    (bookmarkExists (userTogglesTuitBookmarks s uid tid profile).2
        (resolveUserId uid profile) tid ↔
      ¬ bookmarkExists s (resolveUserId uid profile) tid) ∧
    (bookmarkExists
        (userTogglesTuitBookmarks
          (userTogglesTuitBookmarks s uid tid profile).2 uid tid profile).2
        (resolveUserId uid profile) tid ↔
      bookmarkExists s (resolveUserId uid profile) tid) := by
  refine ⟨toggle_flips s uid tid profile, ?_⟩
  rw [toggle_flips, toggle_flips]
  exact not_not

/-- The tuit is authored by the given user (`deleteMany({postedBy: uid})`
match condition). -/
def authoredBy (t : Tuit) (uid : String) : Bool :=
  match t.postedBy with
  | some u => u._id == uid
  | none => false

/-- Modelled from the spec: `TuitDao.deleteAllTuitsByUser` — cascading
bulk delete of the user's tuits. -/
def deleteAllTuitsByUser (s : Store) (uid : String) : Store :=
  { s with tuits := s.tuits.filter (fun t => !(authoredBy t uid)) }

/-- Modelled from the spec: `BookmarkDao.deleteAllBookmarksByUser`. -/
def deleteAllBookmarksByUser (s : Store) (uid : String) : Store :=
  { s with bookmarks := s.bookmarks.filter (fun b => !(b.user == uid)) }

/-- Modelled from the spec: `DislikeDao.deleteAllDislikesByUser`. -/
def deleteAllDislikesByUser (s : Store) (uid : String) : Store :=
  { s with dislikes := s.dislikes.filter (fun d => !(d.user == uid)) }

/-- Modelled from the spec: `LikeDao.deleteAllLikesByUser`. -/
def deleteAllLikesByUser (s : Store) (uid : String) : Store :=
  { s with likes := s.likes.filter (fun l => !(l.user == uid)) }

/-- Modelled from the spec: `UserDao.deleteUser` — delete the user
record by primary key. -/
def deleteUser (s : Store) (uid : String) : Store :=
  { s with users := s.users.filter (fun u => !(u._id == uid)) }

/-- `UserController.adminDeleteUser`: delete all the user's tuits,
bookmarks, dislikes and likes, then the user, and respond with the
delete status. -/
def adminDeleteUser (s : Store) (uid : String) : ApiResponse × Store :=
  let s1 := deleteAllTuitsByUser s uid
  let s2 := deleteAllBookmarksByUser s1 uid
  let s3 := deleteAllDislikesByUser s2 uid
  let s4 := deleteAllLikesByUser s3 uid
  (ApiResponse.deleteStatusJson, deleteUser s4 uid)

/-- `AuthenticationController.delete`: with a session profile, run the
same cascade for the profile's id and destroy the session; without one,
respond 403 and change nothing. -/
def authDelete (s : Store) (profile : Option User) :
    ApiResponse × Store × Option User :=
  match profile with
  | some p =>
    let s1 := deleteAllTuitsByUser s p._id
    let s2 := deleteAllBookmarksByUser s1 p._id
    let s3 := deleteAllDislikesByUser s2 p._id
    let s4 := deleteAllLikesByUser s3 p._id
    (ApiResponse.deleteStatusJson, deleteUser s4 p._id, none)
  | none => (ApiResponse.status 403, s, profile)

/-- No stored tuit is authored by the user and no join record of any of
the three kinds references the user. -/
def noUserTraces (s : Store) (uid : String) : Prop :=
  (∀ t ∈ s.tuits, authoredBy t uid = false) ∧
  (∀ l ∈ s.likes, l.user ≠ uid) ∧
  (∀ d ∈ s.dislikes, d.user ≠ uid) ∧
  (∀ b ∈ s.bookmarks, b.user ≠ uid)

/-- C7: after the admin delete — and equally after the session-based
delete — no post authored by the deleted user and no Like, Dislike or
Bookmark referencing the deleted user remains in the store. -/
theorem user_delete_cascades (s : Store) (uid : String) (p : User) :
    noUserTraces (adminDeleteUser s uid).2 uid ∧
    noUserTraces (authDelete s (some p)).2.1 p._id := by
  constructor
  · unfold adminDeleteUser deleteUser deleteAllLikesByUser
      deleteAllDislikesByUser deleteAllBookmarksByUser deleteAllTuitsByUser
      noUserTraces
    refine ⟨?_, ?_, ?_, ?_⟩ <;>
      · intro x hx
        simp only [List.mem_filter] at hx
        simp_all
  · unfold authDelete deleteUser deleteAllLikesByUser
      deleteAllDislikesByUser deleteAllBookmarksByUser deleteAllTuitsByUser
      noUserTraces
    refine ⟨?_, ?_, ?_, ?_⟩ <;>
      · intro x hx
        simp only [List.mem_filter] at hx
        simp_all

/-- Modelled from the spec: `UserDao.findUserByUsername` — point lookup
of a user by username. -/
def findUserByUsername (s : Store) (username : String) : Option User :=
  s.users.find? (fun u => u.username == username)

/-- Modelled from the spec: `UserDao.findUserById` — point lookup of a
user by primary key. -/
def findUserById (s : Store) (uid : String) : Option User :=
  s.users.find? (fun u => u._id == uid)

/-- Modelled from the spec: `UserDao.createUser` — insert the record and
resolve with the inserted user. -/
def createUser (s : Store) (u : User) : User × Store :=
  (u, { s with users := s.users ++ [u] })

/-- `UserController.register`: look the username up; if a user exists
respond 403 and create nothing, otherwise create the user and respond
with the inserted user. -/
def register (s : Store) (body : User) : ApiResponse × Store :=
  match findUserByUsername s body.username with
  | some _ => (ApiResponse.status 403, s)
  | none =>
    let (newUser, s2) := createUser s body
    (ApiResponse.userJson newUser, s2)

/-- `UserController.adminCreateUser`: hash the password, then the same
duplicate-username check as `register` (403 on conflict, create
otherwise). -/
def adminCreateUser (hash : String → String) (s : Store) (body : User) :
    ApiResponse × Store :=
  let newUser := { body with password := hash body.password }
  match findUserByUsername s newUser.username with
  | some _ => (ApiResponse.status 403, s)
  | none =>
    let (u, s2) := createUser s newUser
    (ApiResponse.userJson u, s2)

/-- `AuthenticationController.signup`: hash the password; on a duplicate
username respond 403, otherwise create the user, mask the returned
password with `'*****'`, store the masked user in the session and
respond with it. -/
def signup (hash : String → String) (s : Store) (body : User)
    (session : Option User) : ApiResponse × Store × Option User :=
  let newUser := { body with password := hash body.password }
  match findUserByUsername s newUser.username with
  | some _ => (ApiResponse.status 403, s, session)
  | none =>
    let (insertedUser, s2) := createUser s newUser
    let masked := { insertedUser with password := "*****" }
    (ApiResponse.userJson masked, s2, some masked)

/-- Some stored user already has this username. -/
def usernameTaken (s : Store) (username : String) : Prop :=
  ∃ u ∈ s.users, u.username = username

theorem findUserByUsername_eq_none {s : Store} {username : String}
    (h : ¬ usernameTaken s username) :
    findUserByUsername s username = none := by
  unfold findUserByUsername
  rw [List.find?_eq_none]
  intro u hu hp
  exact h ⟨u, hu, by simpa using hp⟩

theorem findUserByUsername_isSome {s : Store} {username : String}
    (h : usernameTaken s username) :
    ∃ u, findUserByUsername s username = some u := by
  rcases h with ⟨u, hu, hname⟩
  unfold findUserByUsername
  have hp : (u.username == username) = true := by simp [hname]
  have hsome : (s.users.find? (fun u2 => u2.username == username)).isSome = true :=
    List.find?_isSome.mpr ⟨u, hu, hp⟩
  rcases Option.isSome_iff_exists.mp hsome with ⟨v, hv⟩
  exact ⟨v, hv⟩

/-- C8: with a duplicate username, `register`, `adminCreateUser` and
`signup` all respond 403 and leave the user store unchanged; with a
fresh username each creates exactly the new user record and responds
with the inserted user. -/
theorem register_conflict_or_create (hash : String → String) (s : Store)
    (body : User) (session : Option User) :
    (usernameTaken s body.username →
      register s body = (ApiResponse.status 403, s) ∧
      adminCreateUser hash s body = (ApiResponse.status 403, s) ∧
      (signup hash s body session).1 = ApiResponse.status 403 ∧
      (signup hash s body session).2.1 = s) ∧
    (¬ usernameTaken s body.username →
      register s body = (ApiResponse.userJson body,
        { s with users := s.users ++ [body] }) ∧
      adminCreateUser hash s body =
        (ApiResponse.userJson { body with password := hash body.password },
         { s with users := s.users ++ [{ body with password := hash body.password }] }) ∧
      (signup hash s body session).2.1 =
        { s with users := s.users ++ [{ body with password := hash body.password }] }) := by
  constructor
  · intro htaken
    obtain ⟨u, hu⟩ := findUserByUsername_isSome htaken
    refine ⟨?_, ?_, ?_, ?_⟩
    · simp [register, hu]
    · simp [adminCreateUser, hu]
    · simp [signup, hu]
    · simp [signup, hu]
  · intro hfree
    have hnone := findUserByUsername_eq_none hfree
    refine ⟨?_, ?_, ?_⟩
    · simp [register, createUser, hnone]
    · simp [adminCreateUser, createUser, hnone]
    · simp [signup, createUser, hnone]

/-- C8 witness: with user alice present, registering "alice" again gives
403 and an unchanged store; on the empty store it creates the user. -/
theorem register_conflict_or_create_witness :
    register ⟨[⟨"u1", "alice", "h", "a"⟩], [], [], [], []⟩
        ⟨"u9", "alice", "pw", "x"⟩ =
      (ApiResponse.status 403, ⟨[⟨"u1", "alice", "h", "a"⟩], [], [], [], []⟩) ∧
    register ⟨[], [], [], [], []⟩ ⟨"u9", "bob", "pw", "x"⟩ =
      (ApiResponse.userJson ⟨"u9", "bob", "pw", "x"⟩,
       ⟨[⟨"u9", "bob", "pw", "x"⟩], [], [], [], []⟩) := by
  constructor
  · exact ((register_conflict_or_create id
      ⟨[⟨"u1", "alice", "h", "a"⟩], [], [], [], []⟩
      ⟨"u9", "alice", "pw", "x"⟩ none).1
      ⟨⟨"u1", "alice", "h", "a"⟩, by simp, rfl⟩).1
  · refine ((register_conflict_or_create id ⟨[], [], [], [], []⟩
      ⟨"u9", "bob", "pw", "x"⟩ none).2 ?_).1
    rintro ⟨u, hu, _⟩
    simp at hu

/-- `AuthenticationController.login`: find the user by username; if
present and the bcrypt comparison succeeds, mask the password with
`'*****'`, store the user in the session and respond with it; otherwise
respond 403. -/
def login (cmp : String → String → Bool) (s : Store)
    (username password : String) (session : Option User) :
    ApiResponse × Store × Option User :=
  match findUserByUsername s username with
  | some existingUser =>
    if cmp password existingUser.password then
      let masked := { existingUser with password := "*****" }
      (ApiResponse.userJson masked, s, some masked)
    else (ApiResponse.status 403, s, session)
  | none => (ApiResponse.status 403, s, session)

/-- `AuthenticationController.profile`: with a session profile, re-fetch
the user by id and respond with it, password masked; 403 otherwise. -/
def profile (s : Store) (session : Option User) : ApiResponse :=
  match session with
  | some p =>
    match findUserById s p._id with
    | some existingUser =>
      ApiResponse.userJson { existingUser with password := "*****" }
    | none => ApiResponse.status 403
  | none => ApiResponse.status 403

/-- C9: every user object returned by the login, signup and profile
endpoints carries the literal password `'*****'` — never the stored
hash. -/
theorem auth_password_masked (cmp : String → String → Bool)
    (hash : String → String) (s : Store) (username password : String)
    (body : User) (session : Option User) (u : User) :
    ((login cmp s username password session).1 = ApiResponse.userJson u →
      u.password = "*****") ∧
    ((signup hash s body session).1 = ApiResponse.userJson u →
      u.password = "*****") ∧
    (profile s session = ApiResponse.userJson u → u.password = "*****") := by
  refine ⟨?_, ?_, ?_⟩
  · intro h
    cases hf : findUserByUsername s username with
    | none => simp [login, hf] at h
    | some existingUser =>
      cases hc : cmp password existingUser.password with
      | false => simp [login, hf, hc] at h
      | true =>
        have hres : (login cmp s username password session).1 =
            ApiResponse.userJson { existingUser with password := "*****" } := by
          simp [login, hf, hc]
        rw [hres] at h
        injection h with h2
        rw [← h2]
  · intro h
    cases hf : findUserByUsername s body.username with
    | some u2 =>
      have hres : (signup hash s body session).1 = ApiResponse.status 403 := by
        simp [signup, hf]
      rw [hres] at h
      cases h
    | none =>
      have hres : (signup hash s body session).1 =
          ApiResponse.userJson { body with password := "*****" } := by
        simp [signup, createUser, hf]
      rw [hres] at h
      injection h with h2
      rw [← h2]
  · intro h
    cases session with
    | none => simp [profile] at h
    | some p =>
      cases hf : findUserById s p._id with
      | none => simp [profile, hf] at h
      | some existingUser =>
        have hres : profile s (some p) =
            ApiResponse.userJson { existingUser with password := "*****" } := by
          simp [profile, hf]
        rw [hres] at h
        injection h with h2
        rw [← h2]

/-- C9 witness: a concrete successful login responds with the masked
password. -/
theorem auth_password_masked_witness :
    (login (fun a b => a == b) ⟨[⟨"u1", "alice", "pw", "a"⟩], [], [], [], []⟩
      "alice" "pw" none).1 =
        ApiResponse.userJson ⟨"u1", "alice", "*****", "a"⟩ ∧
    (⟨"u1", "alice", "*****", "a"⟩ : User).password = "*****" := by
  refine ⟨by rfl, ?_⟩
  exact (auth_password_masked (fun a b => a == b) id
    ⟨[⟨"u1", "alice", "pw", "a"⟩], [], [], [], []⟩ "alice" "pw"
    ⟨"u9", "bob", "pw", "x"⟩ none ⟨"u1", "alice", "*****", "a"⟩).1 (by rfl)

/-- The comparator passed to `users.sort` in
`UserController.searchByUsername`: `(a, b) => a.username > b.username ? 1 : -1`. -/
def usernameComparator (a b : User) : Int :=
  if b.username < a.username then 1 else -1

/-- `users.sort(comparator)`: the engine's sort yields an order in which
no earlier element compares greater than a later one; modelled as a
merge sort by the comparator's non-positive relation. -/
def sortUsers (users : List User) : List User :=
  users.mergeSort (fun a b => decide (usernameComparator a b ≤ 0))

/-- `UserController.searchByUsername`, from the point where the DAO has
delivered the matching users: sort them by the comparator and respond
with the sorted array as JSON. -/
def searchByUsername (daoUsers : List User) : ApiResponse :=
  ApiResponse.usersJson (sortUsers daoUsers)

theorem usernameComparator_nonpos (a b : User) :
    decide (usernameComparator a b ≤ 0) = decide (a.username ≤ b.username) := by
  unfold usernameComparator
  by_cases h : b.username < a.username
  · simp [h, not_le.mpr h]
  · simp [h, le_of_not_lt h]

/-- C10: the search response is a permutation of the users the store
returned, sorted in ascending username order — every adjacent pair is
non-decreasing. -/
theorem searchByUsername_sorted (users : List User) :
    ∃ sortedUsers, searchByUsername users = ApiResponse.usersJson sortedUsers ∧
      sortedUsers.Perm users ∧
      List.Chain' (fun a b => a.username ≤ b.username) sortedUsers := by
  refine ⟨sortUsers users, rfl, List.mergeSort_perm users _, ?_⟩
  have hsorted : List.Pairwise
      (fun a b => decide (usernameComparator a b ≤ 0) = true)
      (sortUsers users) := by
    apply List.sorted_mergeSort
    · intro a b c hab hbc
      rw [usernameComparator_nonpos] at hab hbc ⊢
      simp only [decide_eq_true_eq] at hab hbc ⊢
      exact le_trans hab hbc
    · intro a b
      rw [usernameComparator_nonpos, usernameComparator_nonpos]
      simp only [Bool.or_eq_true, decide_eq_true_eq]
      exact le_total a.username b.username
  refine List.Pairwise.chain' (hsorted.imp ?_)
  intro a b hab
  rw [usernameComparator_nonpos] at hab
  simpa using hab

end Tuiter
